import Mathlib

/-!
Verification of the temporal-sampling and detection-normalization pipeline
of the AE-Demo-NBA repository (scripts/run_cv_kill_bill.py and
scripts/run_cv_kill_bill_open_vocab.py).

The two Python scripts are embedded shallowly: Python floats are modelled as
exact rationals (ℚ), Python ints as ℤ/ℕ, fallible operations (attribute
access on a missing field, list indexing) as `Except String`.  The external
collaborators (video decoder, detection model) are modelled as inputs: a run
is a pure function of the reported frame rate and the per-frame raw detector
outputs.
-/

/-- Python `round` to the nearest integer, ties to even (banker's rounding),
as an exact function on rationals. -/
def pyRoundInt (q : ℚ) : ℤ :=
  if q - ⌊q⌋ < 1/2 then ⌊q⌋
  else if 1/2 < q - ⌊q⌋ then ⌊q⌋ + 1
  else if 2 ∣ ⌊q⌋ then ⌊q⌋ else ⌊q⌋ + 1

/-- Python `int()` on a float: truncation toward zero. -/
def pyTrunc (q : ℚ) : ℤ :=
  if q < 0 then ⌈q⌉ else ⌊q⌋

/-- Python `round(x, d)`: round to `d` decimal digits, ties to even. -/
def roundTo (d : ℕ) (q : ℚ) : ℚ :=
  (pyRoundInt (q * 10 ^ d) : ℚ) / 10 ^ d

/-- `video_fps = cap.get(cv2.CAP_PROP_FPS) or 30.0`: OpenCV reports 0.0 when
the frame rate is unavailable, and Python `or` substitutes 30.0 for the
falsy value 0.0. -/
def effectiveFps (reported : ℚ) : ℚ :=
  if reported = 0 then 30 else reported

/-- `stride = max(1, int(round(video_fps / sample_fps)))`. -/
def strideOf (video_fps sample_fps : ℚ) : ℕ :=
  max 1 (pyRoundInt (video_fps / sample_fps)).toNat

/-- A normalized detection as emitted into the `boxes` array of the output
JSON: `label`, `confidence` (possibly `null`), `bbox_px`, `bbox_pct`. -/
structure NormalizedDetection where
  label : String
  confidence : Option ℚ
  bbox_px : ℤ × ℤ × ℤ × ℤ
  bbox_pct : ℚ × ℚ × ℚ × ℚ
  deriving DecidableEq, Repr

/-- One entry of the artifact's `frames` array: `time`, `frame_index`,
`boxes`. -/
structure FrameRecord where
  time : ℚ
  frame_index : ℕ
  boxes : List NormalizedDetection
  deriving DecidableEq, Repr

namespace KB

/-! Embedding of `scripts/run_cv_kill_bill.py` (closed-vocabulary YOLO
backend). -/

/-- `ALLOWED_CLASSES = {"person"}`. -/
def ALLOWED_CLASSES : List String := ["person"]

/-- One element `b` of `r.boxes`: `b.xyxy[0]` (modelled as optional so that a
raw detection with a missing box can be represented), `b.cls`, `b.conf`. -/
structure YoloBox where
  xyxy : Option (ℚ × ℚ × ℚ × ℚ)
  cls : Option ℤ
  conf : Option ℚ
  deriving DecidableEq, Repr

/-- `results[0]`: the class-name table `r.names` (a dict from class id to
name) and the optional box list `r.boxes`. -/
structure YoloResult where
  names : List (ℤ × String)
  boxes : Option (List YoloBox)
  deriving DecidableEq, Repr

/-- One decoded frame together with what `model.predict` returned on it;
`result = none` models `results` empty or falsy. -/
structure Frame where
  width : ℕ
  height : ℕ
  result : Option YoloResult
  deriving DecidableEq, Repr

/-- `names.get(cls_id, f"class-<id>")`: dict lookup with a synthetic
fallback name. -/
def resolveLabel (names : List (ℤ × String)) (cls_id : ℤ) : String :=
  match names.lookup cls_id with
  | some s => s
  | none => "class-" ++ toString cls_id

/-- The per-detection body of the inner loop: unpack `b.xyxy[0]` (an absent
box raises, modelled by `Except.error`), default `cls` to `-1`, keep an
absent `conf` as `None`, clamp `x1,y1` from below by 0 and `x2,y2` from
above by `w-1`/`h-1`, resolve the label, drop the detection when the
allow-list is non-empty and does not contain the label, and otherwise build
the output record with truncated pixel coordinates and percentages computed
from the clamped pre-truncation coordinates. -/
def processBox (names : List (ℤ × String)) (w h : ℕ) (allowed : List String)
    (b : YoloBox) : Except String (Option NormalizedDetection) :=
  match b.xyxy with
  | none => .error "AttributeError: missing box"
  | some (x1, y1, x2, y2) =>
    let cls_id : ℤ := match b.cls with | some c => c | none => -1
    let conf_score : Option ℚ := b.conf
    let x1c := max 0 x1
    let y1c := max 0 y1
    let x2c := min ((w : ℚ) - 1) x2
    let y2c := min ((h : ℚ) - 1) y2
    let label_name := resolveLabel names cls_id
    if allowed ≠ [] ∧ label_name ∉ allowed then
      .ok none
    else
      .ok (some
        { label := label_name
          confidence := conf_score.map (roundTo 3)
          bbox_px := (pyTrunc x1c, pyTrunc y1c, pyTrunc x2c, pyTrunc y2c)
          bbox_pct :=
            (roundTo 2 (100 * x1c / w), roundTo 2 (100 * y1c / h),
             roundTo 2 (100 * x2c / w), roundTo 2 (100 * y2c / h)) })

/-- The inner `for b in r.boxes` loop: an error on any detection aborts the
whole frame; a filtered detection contributes nothing; the rest are appended
in order. -/
def processBoxes (names : List (ℤ × String)) (w h : ℕ) (allowed : List String) :
    List YoloBox → Except String (List NormalizedDetection)
  | [] => .ok []
  | b :: rest =>
    match processBox names w h allowed b with
    | .error e => .error e
    | .ok nd? =>
      match processBoxes names w h allowed rest with
      | .error e => .error e
      | .ok tail =>
        match nd? with
        | some nd => .ok (nd :: tail)
        | none => .ok tail

/-- The `boxes` accumulated for one sampled frame: empty when `results` is
falsy or `r.boxes is None`, otherwise the result of the detection loop. -/
def frameBoxes (fr : Frame) : Except String (List NormalizedDetection) :=
  match fr.result with
  | none => .ok []
  | some r =>
    match r.boxes with
    | none => .ok []
    | some bs => processBoxes r.names fr.width fr.height ALLOWED_CLASSES bs

/-- Processing of one sampled frame: run the detector-output loop and build
the frame record with `time = round(frame_idx / video_fps, 3)`. -/
def processFrame (video_fps : ℚ) (idx : ℕ) (fr : Frame) :
    Except String FrameRecord :=
  match frameBoxes fr with
  | .error e => .error e
  | .ok boxes =>
    .ok { time := roundTo 3 ((idx : ℚ) / video_fps), frame_index := idx,
          boxes := boxes }

/-- The main `while` loop: frames are consumed sequentially; an index not
divisible by the stride is skipped; each selected frame appends exactly one
frame record. -/
def runFrames (video_fps : ℚ) (stride : ℕ) :
    ℕ → List Frame → Except String (List FrameRecord)
  | _, [] => .ok []
  | idx, fr :: rest =>
    if idx % stride ≠ 0 then runFrames video_fps stride (idx + 1) rest
    else
      match processFrame video_fps idx fr with
      | .error e => .error e
      | .ok rec =>
        match runFrames video_fps stride (idx + 1) rest with
        | .error e => .error e
        | .ok tail => .ok (rec :: tail)

/-- The top-level JSON document written by `json.dump`. -/
structure RunArtifact where
  source : String
  sample_fps : ℚ
  video_fps : ℚ
  model : String
  conf : ℚ
  imgsz : ℕ
  frames : List FrameRecord
  deriving DecidableEq, Repr

/-- `run_detection(sample_fps, conf, imgsz)`: abort if the video cannot be
opened, substitute 30.0 for a zero reported frame rate, compute the stride,
run the sampling loop, and assemble the artifact.  The decoded frames with
their raw detector outputs are inputs (the detector is an external
collaborator); `conf` and `imgsz` only reach the metadata here. -/
def run_detection (sample_fps conf : ℚ) (imgsz : ℕ) (opened : Bool)
    (reported_fps : ℚ) (framesIn : List Frame) :
    Except String RunArtifact :=
  if !opened then
    .error "RuntimeError: Cannot open video"
  else
    let video_fps := effectiveFps reported_fps
    let stride := strideOf video_fps sample_fps
    match runFrames video_fps stride 0 framesIn with
    | .error e => .error e
    | .ok frames =>
      .ok { source := "public/Kill_Bill_Vol1_Part2_30FPS_1428s-1432s.mp4"
            sample_fps := sample_fps
            video_fps := video_fps
            model := "yolov8n.pt"
            conf := conf
            imgsz := imgsz
            frames := frames }

end KB

namespace OV

/-! Embedding of `scripts/run_cv_kill_bill_open_vocab.py` (open-vocabulary
OWL-ViT backend). -/

/-- Default prompt list used when the `prompts` argument is `None` or empty
(Python `prompts or [...]` replaces any falsy value). -/
def defaultPrompts : List String :=
  ["katana", "sword", "blade", "yellow jumpsuit", "yellow suit",
   "yellow outfit"]

/-- One element of `zip(results["boxes"], results["scores"],
results["labels"])`: a pixel-coordinate box, a score and the index of the
matched prompt. -/
structure OVDetection where
  box : ℚ × ℚ × ℚ × ℚ
  score : ℚ
  label_idx : ℕ
  deriving DecidableEq, Repr

/-- One decoded frame together with the post-processed detector output on
it. -/
structure Frame where
  width : ℕ
  height : ℕ
  dets : List OVDetection
  deriving DecidableEq, Repr

/-- The per-detection body of the inner loop: `conf = float(score.item())`,
`label = prompts[int(label_idx)]` (an out-of-range index raises, modelled by
`Except.error`), unpack the box, clamp `x1,y1` below by 0.0 and `x2,y2`
above by `float(w-1)`/`float(h-1)`, and build the output record; there is no
label filter in this backend. -/
def processDet (prompts : List String) (w h : ℕ) (d : OVDetection) :
    Except String NormalizedDetection :=
  match prompts.get? d.label_idx with
  | none => .error "IndexError: prompt index out of range"
  | some label =>
    let conf := d.score
    match d.box with
    | (x1, y1, x2, y2) =>
      let x1c := max 0 x1
      let y1c := max 0 y1
      let x2c := min ((w : ℚ) - 1) x2
      let y2c := min ((h : ℚ) - 1) y2
      .ok { label := label
            confidence := some (roundTo 3 conf)
            bbox_px := (pyTrunc x1c, pyTrunc y1c, pyTrunc x2c, pyTrunc y2c)
            bbox_pct :=
              (roundTo 2 (100 * x1c / w), roundTo 2 (100 * y1c / h),
               roundTo 2 (100 * x2c / w), roundTo 2 (100 * y2c / h)) }

/-- The inner `for box, score, label_idx in zip(...)` loop. -/
def processDets (prompts : List String) (w h : ℕ) :
    List OVDetection → Except String (List NormalizedDetection)
  | [] => .ok []
  | d :: rest =>
    match processDet prompts w h d with
    | .error e => .error e
    | .ok nd =>
      match processDets prompts w h rest with
      | .error e => .error e
      | .ok tail => .ok (nd :: tail)

/-- Processing of one sampled frame. -/
def processFrame (prompts : List String) (video_fps : ℚ) (idx : ℕ)
    (fr : Frame) : Except String FrameRecord :=
  match processDets prompts fr.width fr.height fr.dets with
  | .error e => .error e
  | .ok boxes =>
    .ok { time := roundTo 3 ((idx : ℚ) / video_fps), frame_index := idx,
          boxes := boxes }

/-- The main `while` loop, identical in structure to the closed-vocabulary
backend. -/
def runFrames (prompts : List String) (video_fps : ℚ) (stride : ℕ) :
    ℕ → List Frame → Except String (List FrameRecord)
  | _, [] => .ok []
  | idx, fr :: rest =>
    if idx % stride ≠ 0 then runFrames prompts video_fps stride (idx + 1) rest
    else
      match processFrame prompts video_fps idx fr with
      | .error e => .error e
      | .ok rec =>
        match runFrames prompts video_fps stride (idx + 1) rest with
        | .error e => .error e
        | .ok tail => .ok (rec :: tail)

/-- The top-level JSON document written by `json.dump`. -/
structure RunArtifact where
  source : String
  sample_fps : ℚ
  video_fps : ℚ
  model : String
  score_threshold : ℚ
  prompts : List String
  frames : List FrameRecord
  deriving DecidableEq, Repr

/-- `run_detection(sample_fps, score_threshold, model_id, prompts)`:
substitute the default prompts for a `None` or empty prompt list, abort if
the video cannot be opened, apply the frame-rate fallback, compute the
stride, run the sampling loop, and assemble the artifact. -/
def run_detection (sample_fps score_threshold : ℚ) (model_id : String)
    (promptsIn : Option (List String)) (opened : Bool) (reported_fps : ℚ)
    (framesIn : List Frame) : Except String RunArtifact :=
  let prompts :=
    match promptsIn with
    | none => defaultPrompts
    | some [] => defaultPrompts
    | some ps => ps
  if !opened then
    .error "RuntimeError: Cannot open video"
  else
    let video_fps := effectiveFps reported_fps
    let stride := strideOf video_fps sample_fps
    match runFrames prompts video_fps stride 0 framesIn with
    | .error e => .error e
    | .ok frames =>
      .ok { source := "public/Kill_Bill_Vol1_Part2_30FPS_1428s-1432s.mp4"
            sample_fps := sample_fps
            video_fps := video_fps
            model := model_id
            score_threshold := score_threshold
            prompts := prompts
            frames := frames }

end OV

/-! ### Persistence

The tail of both scripts is
`OUT_PATH.parent.mkdir(parents=True, exist_ok=True)` followed by
`with OUT_PATH.open("w") as f: json.dump(..., f)`.  We model its observable
file-system behaviour as a trace of primitive operations on the destination
path: creating the parent directories, opening the file in mode `"w"`
(which truncates it immediately), writing the serialized document, and
closing the file. -/

/-- A primitive file-system operation. -/
inductive FsOp where
  | mkdirParents (dir : String)
  | openTruncate (path : String)
  | write (path : String) (data : String)
  | closeFile (path : String)
  deriving DecidableEq, Repr

/-- The destination path of both scripts. -/
def OUT_PATH : String := "data/cv/kill-bill-clip-detections.json"

/-- The trace of file-system operations performed to persist a run whose
serialized JSON document is `doc` (`json.dump` always emits a non-empty
text for the artifact object). -/
def persistOps (doc : String) : List FsOp :=
  [.mkdirParents "data/cv",
   .openTruncate OUT_PATH,
   .write OUT_PATH doc,
   .closeFile OUT_PATH]

/-- Effect of one operation on the contents of the destination file
(`none` = the file does not exist). -/
def applyOp (content : Option String) : FsOp → Option String
  | .mkdirParents _ => content
  | .openTruncate _ => some ""
  | .write _ s => some (content.getD "" ++ s)
  | .closeFile _ => content

/-- Contents of the destination file after a trace of operations, starting
from `initial`. -/
def contentAfter (initial : Option String) (ops : List FsOp) : Option String :=
  ops.foldl applyOp initial

/-- An atomic persist: at every intermediate point of the trace a reader
sees either the prior contents or the complete new document, never anything
else. -/
def AtomicPersist (old doc : String) : Prop :=
  ∀ k : ℕ,
    contentAfter (some old) ((persistOps doc).take k) = some old ∨
    contentAfter (some old) ((persistOps doc).take k) = some doc

/-- Whether an operation writes data. -/
def FsOp.isWrite : FsOp → Bool
  | .write _ _ => true
  | _ => false

/-- The pixel-box invariant claimed by the spec:
`0 <= bbox_px[0] <= bbox_px[2] <= width-1` and
`0 <= bbox_px[1] <= bbox_px[3] <= height-1`. -/
def BoxPxInvariant (w h : ℕ) (nd : NormalizedDetection) : Prop :=
  0 ≤ nd.bbox_px.1 ∧ nd.bbox_px.1 ≤ nd.bbox_px.2.2.1 ∧
  nd.bbox_px.2.2.1 ≤ (w : ℤ) - 1 ∧
  0 ≤ nd.bbox_px.2.1 ∧ nd.bbox_px.2.1 ≤ nd.bbox_px.2.2.2 ∧
  nd.bbox_px.2.2.2 ≤ (h : ℤ) - 1

instance (w h : ℕ) (nd : NormalizedDetection) :
    Decidable (BoxPxInvariant w h nd) := by
  unfold BoxPxInvariant
  infer_instance

/-! ### Helper lemmas -/

lemma pyTrunc_of_nonneg {q : ℚ} (h : 0 ≤ q) : pyTrunc q = ⌊q⌋ := by
  simp [pyTrunc, not_lt.mpr h]

lemma pyTrunc_nonneg {q : ℚ} (h : 0 ≤ q) : 0 ≤ pyTrunc q := by
  rw [pyTrunc_of_nonneg h]
  exact Int.floor_nonneg.mpr h

lemma pyTrunc_mono_nonneg {a b : ℚ} (ha : 0 ≤ a) (hab : a ≤ b) :
    pyTrunc a ≤ pyTrunc b := by
  rw [pyTrunc_of_nonneg ha, pyTrunc_of_nonneg (ha.trans hab)]
  exact Int.floor_le_floor hab

lemma pyTrunc_le_int {b : ℚ} {z : ℤ} (hb : 0 ≤ b) (h : b ≤ (z : ℚ)) :
    pyTrunc b ≤ z := by
  rw [pyTrunc_of_nonneg hb]
  calc ⌊b⌋ ≤ ⌊(z : ℚ)⌋ := Int.floor_le_floor h
  _ = z := Int.floor_intCast z

lemma pyRoundInt_nonneg {q : ℚ} (h : 0 ≤ q) : 0 ≤ pyRoundInt q := by
  have h0 : (0 : ℤ) ≤ ⌊q⌋ := Int.floor_nonneg.mpr h
  unfold pyRoundInt
  split
  · exact h0
  · split
    · omega
    · split <;> omega

lemma pyRoundInt_le_one {q : ℚ} (h : q ≤ 1) : pyRoundInt q ≤ 1 := by
  have hf : ⌊q⌋ ≤ 1 := by
    calc ⌊q⌋ ≤ ⌊(1 : ℚ)⌋ := Int.floor_le_floor h
    _ = 1 := by norm_num
  unfold pyRoundInt
  split
  · exact hf
  · rename_i h1
    push_neg at h1
    have hle : (⌊q⌋ : ℚ) + 1/2 ≤ q := by linarith
    have hfl : ⌊q⌋ ≤ 0 := by
      by_contra hc
      push_neg at hc
      have : (1 : ℚ) ≤ (⌊q⌋ : ℚ) := by exact_mod_cast hc
      linarith
    split
    · omega
    · split <;> omega

/-- The pixel-quantized clamped coordinates satisfy
`0 ≤ trunc(max 0 x1) ≤ trunc(min (w-1) x2) ≤ w-1` whenever the raw
coordinates are ordered and the raw box meets the frame. -/
lemma clamp_chain {x1 x2 : ℚ} {w : ℕ} (hw : 1 ≤ w) (hx2 : 0 ≤ x2)
    (hord : x1 ≤ x2) (hx1w : x1 ≤ (w : ℚ) - 1) :
    0 ≤ pyTrunc (max 0 x1) ∧
    pyTrunc (max 0 x1) ≤ pyTrunc (min ((w : ℚ) - 1) x2) ∧
    pyTrunc (min ((w : ℚ) - 1) x2) ≤ (w : ℤ) - 1 := by
  have hw1 : (1 : ℚ) ≤ (w : ℚ) := by exact_mod_cast hw
  have h0a : (0 : ℚ) ≤ max 0 x1 := le_max_left 0 x1
  have h0b : (0 : ℚ) ≤ min ((w : ℚ) - 1) x2 := le_min (by linarith) hx2
  have hab : max 0 x1 ≤ min ((w : ℚ) - 1) x2 :=
    max_le h0b (le_min hx1w hord)
  refine ⟨pyTrunc_nonneg h0a, pyTrunc_mono_nonneg h0a hab, ?_⟩
  have : min ((w : ℚ) - 1) x2 ≤ (((w : ℤ) - 1 : ℤ) : ℚ) := by
    push_cast
    exact min_le_left _ _
  exact pyTrunc_le_int h0b this

namespace KB

/-- Unfolding of `processBox` on a detection whose box is present. -/
lemma processBox_eq (names : List (ℤ × String)) (w h : ℕ)
    (allowed : List String) (b : YoloBox) (x1 y1 x2 y2 : ℚ)
    (hb : b.xyxy = some (x1, y1, x2, y2)) :
    processBox names w h allowed b =
      if allowed ≠ [] ∧ resolveLabel names (b.cls.getD (-1)) ∉ allowed
      then .ok none
      else .ok (some
        { label := resolveLabel names (b.cls.getD (-1))
          confidence := b.conf.map (roundTo 3)
          bbox_px := (pyTrunc (max 0 x1), pyTrunc (max 0 y1),
                      pyTrunc (min ((w : ℚ) - 1) x2),
                      pyTrunc (min ((h : ℚ) - 1) y2))
          bbox_pct := (roundTo 2 (100 * max 0 x1 / w),
                       roundTo 2 (100 * max 0 y1 / h),
                       roundTo 2 (100 * min ((w : ℚ) - 1) x2 / w),
                       roundTo 2 (100 * min ((h : ℚ) - 1) y2 / h)) }) := by
  unfold processBox
  rw [hb]
  cases hc : b.cls <;> simp [hc]

end KB

namespace OV

/-- Unfolding of `processDet` when the prompt index is in range. -/
lemma processDet_eq (prompts : List String) (w h : ℕ) (d : OVDetection)
    (label : String) (x1 y1 x2 y2 : ℚ)
    (hl : prompts.get? d.label_idx = some label)
    (hb : d.box = (x1, y1, x2, y2)) :
    processDet prompts w h d =
      .ok { label := label
            confidence := some (roundTo 3 d.score)
            bbox_px := (pyTrunc (max 0 x1), pyTrunc (max 0 y1),
                        pyTrunc (min ((w : ℚ) - 1) x2),
                        pyTrunc (min ((h : ℚ) - 1) y2))
            bbox_pct := (roundTo 2 (100 * max 0 x1 / w),
                         roundTo 2 (100 * max 0 y1 / h),
                         roundTo 2 (100 * min ((w : ℚ) - 1) x2 / w),
                         roundTo 2 (100 * min ((h : ℚ) - 1) y2 / h)) } := by
  unfold processDet
  rw [hl, hb]

end OV

/-- C3: the sampling stride is `max(1, round(source_fps / target_fps))`, it
is at least 1, it collapses to 1 whenever the target rate is at least the
source rate, and a zero/unavailable reported source frame rate is replaced
by the constant 30.0 before the division. -/
theorem stride_spec :
    (∀ source_fps target_fps : ℚ, 0 < source_fps → 0 < target_fps →
      (strideOf source_fps target_fps : ℤ) =
        max 1 (pyRoundInt (source_fps / target_fps)) ∧
      1 ≤ strideOf source_fps target_fps ∧
      (source_fps ≤ target_fps → strideOf source_fps target_fps = 1)) ∧
    effectiveFps 0 = 30 ∧ (∀ q : ℚ, q ≠ 0 → effectiveFps q = q) := by
  refine ⟨?_, by simp [effectiveFps], fun q hq => by simp [effectiveFps, hq]⟩
  · intro s t hs ht
    have hr : 0 ≤ pyRoundInt (s / t) := pyRoundInt_nonneg (by positivity)
    refine ⟨?_, le_max_left _ _, ?_⟩
    · unfold strideOf
      push_cast
      rw [Int.toNat_of_nonneg hr]
    · intro hst
      have h1 : s / t ≤ 1 := (div_le_one ht).mpr hst
      have h2 : pyRoundInt (s / t) ≤ 1 := pyRoundInt_le_one h1
      unfold strideOf
      omega

/-- Witness for `stride_spec` at `source_fps = 30`, `target_fps = 3`. -/
theorem stride_spec_witness :
    ((strideOf 30 3 : ℤ) = max 1 (pyRoundInt (30 / 3)) ∧
      1 ≤ strideOf 30 3 ∧ ((30 : ℚ) ≤ 3 → strideOf 30 3 = 1)) ∧
    effectiveFps 0 = 30 ∧ effectiveFps 24 = 24 :=
  ⟨stride_spec.1 30 3 (by norm_num) (by norm_num),
   stride_spec.2.1, stride_spec.2.2 24 (by norm_num)⟩

/-- C10: the pipeline is deterministic — two runs of either backend on
pairwise equal configurations, frame streams and raw detector outputs
produce identical artifacts; the embedding is a pure function of those
inputs, with no hidden state or randomness. -/
theorem pipeline_deterministic :
    (∀ (sf c : ℚ) (i : ℕ) (o : Bool) (rf : ℚ) (fs : List KB.Frame)
       (sf2 c2 : ℚ) (i2 : ℕ) (o2 : Bool) (rf2 : ℚ) (fs2 : List KB.Frame),
       sf = sf2 → c = c2 → i = i2 → o = o2 → rf = rf2 → fs = fs2 →
       KB.run_detection sf c i o rf fs =
         KB.run_detection sf2 c2 i2 o2 rf2 fs2) ∧
    (∀ (sf st : ℚ) (m : String) (p : Option (List String)) (o : Bool)
       (rf : ℚ) (fs : List OV.Frame) (sf2 st2 : ℚ) (m2 : String)
       (p2 : Option (List String)) (o2 : Bool) (rf2 : ℚ)
       (fs2 : List OV.Frame),
       sf = sf2 → st = st2 → m = m2 → p = p2 → o = o2 → rf = rf2 →
       fs = fs2 →
       OV.run_detection sf st m p o rf fs =
         OV.run_detection sf2 st2 m2 p2 o2 rf2 fs2) := by
  constructor
  · intro sf c i o rf fs sf2 c2 i2 o2 rf2 fs2 h1 h2 h3 h4 h5 h6
    subst_vars
    rfl
  · intro sf st m p o rf fs sf2 st2 m2 p2 o2 rf2 fs2 h1 h2 h3 h4 h5 h6 h7
    subst_vars
    rfl

/-- Witness for `pipeline_deterministic` at concrete inputs. -/
theorem pipeline_deterministic_witness :
    KB.run_detection 3 (2/5) 960 true 30 [] =
      KB.run_detection 3 (2/5) 960 true 30 [] ∧
    OV.run_detection 2 (1/5) "google/owlvit-base-patch32" none true 30 [] =
      OV.run_detection 2 (1/5) "google/owlvit-base-patch32" none true 30 [] :=
  ⟨pipeline_deterministic.1 3 (2/5) 960 true 30 [] 3 (2/5) 960 true 30 []
      rfl rfl rfl rfl rfl rfl,
   pipeline_deterministic.2 2 (1/5) "google/owlvit-base-patch32" none true 30
      [] 2 (1/5) "google/owlvit-base-patch32" none true 30 []
      rfl rfl rfl rfl rfl rfl rfl⟩

/-- C9 counterexample: persisting is not atomic.  `open("w")` truncates the
destination before `json.dump` writes the document, so with prior contents
on disk there is an intermediate point of the trace (after the truncating
open) where a reader sees neither the old contents nor the new document. -/
theorem persist_not_atomic :
    ¬ AtomicPersist "prior-contents" "artifact-document" := by
  intro hAt
  have h2 := hAt 2
  simp [AtomicPersist, contentAfter, persistOps, applyOp] at h2

/-- C9 amended: persisting creates the parent directories first, performs
exactly one write — of the complete serialized document, at the end of a
successful run — and leaves the destination holding exactly the document
whether or not it previously existed (a rerun overwrites in place); but the
write is not atomic (see `persist_not_atomic`). -/
theorem persist_amended (doc old : String) :
    (persistOps doc).head? = some (FsOp.mkdirParents "data/cv") ∧
    (persistOps doc).filter FsOp.isWrite = [FsOp.write OUT_PATH doc] ∧
    contentAfter (some old) (persistOps doc) = some doc ∧
    contentAfter none (persistOps doc) = some doc := by
  refine ⟨rfl, rfl, ?_, ?_⟩ <;>
    simp [contentAfter, persistOps, applyOp]

/-- C8 counterexample: contrary to the claim, a raw detection with a
missing box is not skipped — the unguarded `b.xyxy[0]` access raises and
the whole run fails, even though a well-formed detection follows on the
same frame. -/
theorem missing_box_fails_run :
    KB.run_detection 3 (2/5) 960 true 30
      [⟨640, 480, some ⟨[((0 : ℤ), "person")],
        some [⟨none, some 0, some (1/2)⟩,
              ⟨some (1, 1, 10, 10), some 0, some (1/2)⟩]⟩⟩] =
      .error "AttributeError: missing box" := by
  simp [KB.run_detection, KB.runFrames, KB.processFrame, KB.frameBoxes,
    KB.processBoxes, KB.processBox]

/-- C8 amended: a raw detection with a missing box is a hard error for the
whole frame and hence the whole run — the per-frame loop propagates the
error instead of skipping the single detection. -/
theorem missing_box_aborts_frame (names : List (ℤ × String)) (w h : ℕ)
    (allowed : List String) (bs : List KB.YoloBox)
    (hbad : ∃ b ∈ bs, b.xyxy = none) :
    ∃ s, KB.processBoxes names w h allowed bs = .error s := by
  induction bs with
  | nil => simp at hbad
  | cons b rest ih =>
    obtain ⟨b0, hmem, hnone⟩ := hbad
    rcases List.mem_cons.mp hmem with hb0 | hb0
    · subst hb0
      refine ⟨"AttributeError: missing box", ?_⟩
      unfold KB.processBoxes
      unfold KB.processBox
      rw [hnone]
    · cases hpb : KB.processBox names w h allowed b with
      | error e =>
        refine ⟨e, ?_⟩
        unfold KB.processBoxes
        rw [hpb]
      | ok nd? =>
        obtain ⟨s, hs⟩ := ih ⟨b0, hb0, hnone⟩
        refine ⟨s, ?_⟩
        unfold KB.processBoxes
        rw [hpb, hs]

/-- Witness for `missing_box_aborts_frame` on a concrete detection list. -/
theorem missing_box_aborts_frame_witness :
    ∃ s, KB.processBoxes [((0 : ℤ), "person")] 640 480 KB.ALLOWED_CLASSES
      [⟨none, none, none⟩] = .error s :=
  missing_box_aborts_frame [((0 : ℤ), "person")] 640 480 KB.ALLOWED_CLASSES
    [⟨none, none, none⟩] ⟨⟨none, none, none⟩, by simp, rfl⟩

/-- C1 counterexample: an unordered raw box survives clamping with its
order violation intact — `x2,y2` are never clamped from below and `x1,y1`
never from above — so the emitted `bbox_px` can have `bbox_px[0] >
bbox_px[2]`, refuting the claimed invariant for arbitrary raw boxes. -/
theorem bbox_px_order_counterexample :
    ∃ nd, KB.processBox [((0 : ℤ), "person")] 640 480 KB.ALLOWED_CLASSES
        ⟨some (5, 5, 3, 3), some 0, some (9/10)⟩ = .ok (some nd) ∧
      ¬ BoxPxInvariant 640 480 nd := by
  have heq := KB.processBox_eq [((0 : ℤ), "person")] 640 480
    KB.ALLOWED_CLASSES ⟨some (5, 5, 3, 3), some 0, some (9/10)⟩ 5 5 3 3 rfl
  rw [if_neg (by simp [KB.resolveLabel, KB.ALLOWED_CLASSES])] at heq
  refine ⟨_, heq, ?_⟩
  have e1 : pyTrunc (max 0 (5 : ℚ)) = 5 := by
    rw [max_eq_right (by norm_num : (0 : ℚ) ≤ 5)]
    norm_num [pyTrunc]
  have e2 : pyTrunc (min (((640 : ℕ) : ℚ) - 1) 3) = 3 := by
    rw [min_eq_right (by norm_num : (3 : ℚ) ≤ ((640 : ℕ) : ℚ) - 1)]
    norm_num [pyTrunc]
  intro hinv
  have hx : pyTrunc (max 0 (5 : ℚ)) ≤ pyTrunc (min (((640 : ℕ) : ℚ) - 1) 3) :=
    hinv.2.1
  rw [e1, e2] at hx
  norm_num at hx

/-- C1 amended: the emitted `bbox_px` integers satisfy
`0 <= bbox_px[0] <= bbox_px[2] <= width-1` and
`0 <= bbox_px[1] <= bbox_px[3] <= height-1` in both backends, provided the
raw box is ordered (`x1 <= x2`, `y1 <= y2`) and meets the frame
(`x2 >= 0`, `y2 >= 0`, `x1 <= width-1`, `y1 <= height-1`) with positive
frame dimensions; for unordered or fully out-of-range raw boxes the
invariant can fail (`bbox_px_order_counterexample`). -/
theorem bbox_px_order_amended :
    (∀ (names : List (ℤ × String)) (w h : ℕ) (allowed : List String)
       (b : KB.YoloBox) (x1 y1 x2 y2 : ℚ) (nd : NormalizedDetection),
       b.xyxy = some (x1, y1, x2, y2) →
       1 ≤ w → 1 ≤ h → 0 ≤ x2 → 0 ≤ y2 → x1 ≤ x2 → y1 ≤ y2 →
       x1 ≤ (w : ℚ) - 1 → y1 ≤ (h : ℚ) - 1 →
       KB.processBox names w h allowed b = .ok (some nd) →
       BoxPxInvariant w h nd) ∧
    (∀ (prompts : List String) (w h : ℕ) (d : OV.OVDetection)
       (x1 y1 x2 y2 : ℚ) (nd : NormalizedDetection),
       d.box = (x1, y1, x2, y2) →
       1 ≤ w → 1 ≤ h → 0 ≤ x2 → 0 ≤ y2 → x1 ≤ x2 → y1 ≤ y2 →
       x1 ≤ (w : ℚ) - 1 → y1 ≤ (h : ℚ) - 1 →
       OV.processDet prompts w h d = .ok nd →
       BoxPxInvariant w h nd) := by
  constructor
  · intro names w h allowed b x1 y1 x2 y2 nd hb hw hh hx2 hy2 hox hoy hxw
      hyh hok
    rw [KB.processBox_eq names w h allowed b x1 y1 x2 y2 hb] at hok
    split at hok
    · exact absurd hok (by simp)
    · simp only [Except.ok.injEq, Option.some.injEq] at hok
      subst hok
      obtain ⟨cx1, cx2, cx3⟩ := clamp_chain hw hx2 hox hxw
      obtain ⟨cy1, cy2, cy3⟩ := clamp_chain hh hy2 hoy hyh
      exact ⟨cx1, cx2, cx3, cy1, cy2, cy3⟩
  · intro prompts w h d x1 y1 x2 y2 nd hb hw hh hx2 hy2 hox hoy hxw hyh hok
    cases hget : prompts.get? d.label_idx with
    | none =>
      unfold OV.processDet at hok
      rw [hget] at hok
      simp at hok
    | some label =>
      rw [OV.processDet_eq prompts w h d label x1 y1 x2 y2 hget hb] at hok
      simp only [Except.ok.injEq] at hok
      subst hok
      obtain ⟨cx1, cx2, cx3⟩ := clamp_chain hw hx2 hox hxw
      obtain ⟨cy1, cy2, cy3⟩ := clamp_chain hh hy2 hoy hyh
      exact ⟨cx1, cx2, cx3, cy1, cy2, cy3⟩

/-- Witness for `bbox_px_order_amended` on a concrete in-bounds box. -/
theorem bbox_px_order_amended_witness :
    ∃ nd, KB.processBox [((0 : ℤ), "person")] 20 20 KB.ALLOWED_CLASSES
        ⟨some (0, 0, 10, 10), some 0, none⟩ = .ok (some nd) ∧
      BoxPxInvariant 20 20 nd := by
  have heq := KB.processBox_eq [((0 : ℤ), "person")] 20 20 KB.ALLOWED_CLASSES
    ⟨some (0, 0, 10, 10), some 0, none⟩ 0 0 10 10 rfl
  rw [if_neg (by simp [KB.resolveLabel, KB.ALLOWED_CLASSES])] at heq
  exact ⟨_, heq, bbox_px_order_amended.1 _ 20 20 _ _ 0 0 10 10 _ rfl
    (by norm_num) (by norm_num) (by norm_num) (by norm_num) (by norm_num)
    (by norm_num) (by norm_num) (by norm_num) heq⟩

/-- C2: in both backends `bbox_pct[k]` is `round(100 * c / dimension, 2)`
where `c` is the clamped floating-point coordinate before integer
truncation, with the frame width as the dimension for x coordinates and the
frame height for y coordinates. -/
theorem bbox_pct_pretruncation :
    (∀ (names : List (ℤ × String)) (w h : ℕ) (allowed : List String)
       (b : KB.YoloBox) (x1 y1 x2 y2 : ℚ) (nd : NormalizedDetection),
       b.xyxy = some (x1, y1, x2, y2) →
       KB.processBox names w h allowed b = .ok (some nd) →
       nd.bbox_pct = (roundTo 2 (100 * max 0 x1 / w),
                      roundTo 2 (100 * max 0 y1 / h),
                      roundTo 2 (100 * min ((w : ℚ) - 1) x2 / w),
                      roundTo 2 (100 * min ((h : ℚ) - 1) y2 / h))) ∧
    (∀ (prompts : List String) (w h : ℕ) (d : OV.OVDetection)
       (x1 y1 x2 y2 : ℚ) (nd : NormalizedDetection),
       d.box = (x1, y1, x2, y2) →
       OV.processDet prompts w h d = .ok nd →
       nd.bbox_pct = (roundTo 2 (100 * max 0 x1 / w),
                      roundTo 2 (100 * max 0 y1 / h),
                      roundTo 2 (100 * min ((w : ℚ) - 1) x2 / w),
                      roundTo 2 (100 * min ((h : ℚ) - 1) y2 / h))) := by
  constructor
  · intro names w h allowed b x1 y1 x2 y2 nd hb hok
    rw [KB.processBox_eq names w h allowed b x1 y1 x2 y2 hb] at hok
    split at hok
    · exact absurd hok (by simp)
    · simp only [Except.ok.injEq, Option.some.injEq] at hok
      subst hok
      rfl
  · intro prompts w h d x1 y1 x2 y2 nd hb hok
    cases hget : prompts.get? d.label_idx with
    | none =>
      unfold OV.processDet at hok
      rw [hget] at hok
      simp at hok
    | some label =>
      rw [OV.processDet_eq prompts w h d label x1 y1 x2 y2 hget hb] at hok
      simp only [Except.ok.injEq] at hok
      subst hok
      rfl

/-- Witness for `bbox_pct_pretruncation` on a concrete detection. -/
theorem bbox_pct_pretruncation_witness :
    ∃ nd, KB.processBox [((0 : ℤ), "person")] 200 200 KB.ALLOWED_CLASSES
        ⟨some (0, 0, 100, 100), some 0, some (1/2)⟩ = .ok (some nd) ∧
      nd.bbox_pct = (roundTo 2 (100 * max 0 0 / (200 : ℕ)),
                     roundTo 2 (100 * max 0 0 / (200 : ℕ)),
                     roundTo 2 (100 * min (((200 : ℕ) : ℚ) - 1) 100 / (200 : ℕ)),
                     roundTo 2 (100 * min (((200 : ℕ) : ℚ) - 1) 100 / (200 : ℕ))) := by
  have heq := KB.processBox_eq [((0 : ℤ), "person")] 200 200
    KB.ALLOWED_CLASSES ⟨some (0, 0, 100, 100), some 0, some (1/2)⟩
    0 0 100 100 rfl
  rw [if_neg (by simp [KB.resolveLabel, KB.ALLOWED_CLASSES])] at heq
  exact ⟨_, heq,
    bbox_pct_pretruncation.1 _ 200 200 _ _ 0 0 100 100 _ rfl heq⟩

/-- C5 counterexample: `bbox_pct` is not derivable from the stored
`bbox_px` integers — for a clamped coordinate of 0.9 on a 640-wide frame
the stored pixel value is 0 but the stored percentage is 0.14, not
`round(100 * 0 / 640, 2) = 0`. -/
theorem pct_from_px_counterexample :
    ∃ nd, KB.processBox [((0 : ℤ), "person")] 640 480 KB.ALLOWED_CLASSES
        ⟨some (9/10, 0, 100, 100), some 0, some (1/2)⟩ = .ok (some nd) ∧
      nd.bbox_pct.1 ≠ roundTo 2 (100 * (nd.bbox_px.1 : ℚ) / 640) := by
  have heq := KB.processBox_eq [((0 : ℤ), "person")] 640 480
    KB.ALLOWED_CLASSES ⟨some (9/10, 0, 100, 100), some 0, some (1/2)⟩
    (9/10) 0 100 100 rfl
  rw [if_neg (by simp [KB.resolveLabel, KB.ALLOWED_CLASSES])] at heq
  refine ⟨_, heq, ?_⟩
  have hmax : max 0 ((9 : ℚ)/10) = 9/10 :=
    max_eq_right (by norm_num : (0 : ℚ) ≤ 9/10)
  show roundTo 2 (100 * max 0 ((9 : ℚ)/10) / ((640 : ℕ) : ℚ)) ≠
    roundTo 2 (100 * ((pyTrunc (max 0 ((9 : ℚ)/10)) : ℤ) : ℚ) / 640)
  rw [hmax]
  have epx : pyTrunc ((9 : ℚ)/10) = 0 := by norm_num [pyTrunc]
  rw [epx]
  have e1 : roundTo 2 (100 * ((9 : ℚ)/10) / ((640 : ℕ) : ℚ)) = 7/50 := by
    norm_num [roundTo, pyRoundInt]
  have e2 : roundTo 2 (100 * (((0 : ℤ) : ℚ)) / 640) = 0 := by
    norm_num [roundTo, pyRoundInt]
  rw [e1, e2]
  norm_num

/-- C5 amended: `bbox_pct` is derived from the pre-truncation clamped
coordinates, not from the stored `bbox_px` integers; direct percentage
conversion of `bbox_px` reproduces `bbox_pct` exactly when each clamped
coordinate is already an integer (truncation loses nothing), and can differ
otherwise (`pct_from_px_counterexample`). -/
theorem pct_from_px_amended :
    (∀ (names : List (ℤ × String)) (w h : ℕ) (allowed : List String)
       (b : KB.YoloBox) (x1 y1 x2 y2 : ℚ) (nd : NormalizedDetection),
       b.xyxy = some (x1, y1, x2, y2) →
       KB.processBox names w h allowed b = .ok (some nd) →
       (pyTrunc (max 0 x1) : ℚ) = max 0 x1 →
       (pyTrunc (max 0 y1) : ℚ) = max 0 y1 →
       (pyTrunc (min ((w : ℚ) - 1) x2) : ℚ) = min ((w : ℚ) - 1) x2 →
       (pyTrunc (min ((h : ℚ) - 1) y2) : ℚ) = min ((h : ℚ) - 1) y2 →
       nd.bbox_pct = (roundTo 2 (100 * (nd.bbox_px.1 : ℚ) / w),
                      roundTo 2 (100 * (nd.bbox_px.2.1 : ℚ) / h),
                      roundTo 2 (100 * (nd.bbox_px.2.2.1 : ℚ) / w),
                      roundTo 2 (100 * (nd.bbox_px.2.2.2 : ℚ) / h))) ∧
    (∀ (prompts : List String) (w h : ℕ) (d : OV.OVDetection)
       (x1 y1 x2 y2 : ℚ) (nd : NormalizedDetection),
       d.box = (x1, y1, x2, y2) →
       OV.processDet prompts w h d = .ok nd →
       (pyTrunc (max 0 x1) : ℚ) = max 0 x1 →
       (pyTrunc (max 0 y1) : ℚ) = max 0 y1 →
       (pyTrunc (min ((w : ℚ) - 1) x2) : ℚ) = min ((w : ℚ) - 1) x2 →
       (pyTrunc (min ((h : ℚ) - 1) y2) : ℚ) = min ((h : ℚ) - 1) y2 →
       nd.bbox_pct = (roundTo 2 (100 * (nd.bbox_px.1 : ℚ) / w),
                      roundTo 2 (100 * (nd.bbox_px.2.1 : ℚ) / h),
                      roundTo 2 (100 * (nd.bbox_px.2.2.1 : ℚ) / w),
                      roundTo 2 (100 * (nd.bbox_px.2.2.2 : ℚ) / h))) := by
  constructor
  · intro names w h allowed b x1 y1 x2 y2 nd hb hok h1 h2 h3 h4
    rw [KB.processBox_eq names w h allowed b x1 y1 x2 y2 hb] at hok
    split at hok
    · exact absurd hok (by simp)
    · simp only [Except.ok.injEq, Option.some.injEq] at hok
      subst hok
      show (roundTo 2 (100 * max 0 x1 / w), roundTo 2 (100 * max 0 y1 / h),
            roundTo 2 (100 * min ((w : ℚ) - 1) x2 / w),
            roundTo 2 (100 * min ((h : ℚ) - 1) y2 / h)) =
        (roundTo 2 (100 * ((pyTrunc (max 0 x1) : ℤ) : ℚ) / w),
         roundTo 2 (100 * ((pyTrunc (max 0 y1) : ℤ) : ℚ) / h),
         roundTo 2 (100 * ((pyTrunc (min ((w : ℚ) - 1) x2) : ℤ) : ℚ) / w),
         roundTo 2 (100 * ((pyTrunc (min ((h : ℚ) - 1) y2) : ℤ) : ℚ) / h))
      rw [h1, h2, h3, h4]
  · intro prompts w h d x1 y1 x2 y2 nd hb hok h1 h2 h3 h4
    cases hget : prompts.get? d.label_idx with
    | none =>
      unfold OV.processDet at hok
      rw [hget] at hok
      simp at hok
    | some label =>
      rw [OV.processDet_eq prompts w h d label x1 y1 x2 y2 hget hb] at hok
      simp only [Except.ok.injEq] at hok
      subst hok
      show (roundTo 2 (100 * max 0 x1 / w), roundTo 2 (100 * max 0 y1 / h),
            roundTo 2 (100 * min ((w : ℚ) - 1) x2 / w),
            roundTo 2 (100 * min ((h : ℚ) - 1) y2 / h)) =
        (roundTo 2 (100 * ((pyTrunc (max 0 x1) : ℤ) : ℚ) / w),
         roundTo 2 (100 * ((pyTrunc (max 0 y1) : ℤ) : ℚ) / h),
         roundTo 2 (100 * ((pyTrunc (min ((w : ℚ) - 1) x2) : ℤ) : ℚ) / w),
         roundTo 2 (100 * ((pyTrunc (min ((h : ℚ) - 1) y2) : ℤ) : ℚ) / h))
      rw [h1, h2, h3, h4]

/-- Witness for `pct_from_px_amended` on a concrete integral box. -/
theorem pct_from_px_amended_witness :
    ∃ nd, KB.processBox [((0 : ℤ), "person")] 20 20 KB.ALLOWED_CLASSES
        ⟨some (0, 0, 10, 10), some 0, none⟩ = .ok (some nd) ∧
      nd.bbox_pct = (roundTo 2 (100 * (nd.bbox_px.1 : ℚ) / (20 : ℕ)),
                     roundTo 2 (100 * (nd.bbox_px.2.1 : ℚ) / (20 : ℕ)),
                     roundTo 2 (100 * (nd.bbox_px.2.2.1 : ℚ) / (20 : ℕ)),
                     roundTo 2 (100 * (nd.bbox_px.2.2.2 : ℚ) / (20 : ℕ))) := by
  have heq := KB.processBox_eq [((0 : ℤ), "person")] 20 20 KB.ALLOWED_CLASSES
    ⟨some (0, 0, 10, 10), some 0, none⟩ 0 0 10 10 rfl
  rw [if_neg (by simp [KB.resolveLabel, KB.ALLOWED_CLASSES])] at heq
  have e1 : (pyTrunc (max 0 (0 : ℚ)) : ℚ) = max 0 (0 : ℚ) := by
    norm_num [pyTrunc]
  have e2 : (pyTrunc (min (((20 : ℕ) : ℚ) - 1) 10) : ℚ) =
      min (((20 : ℕ) : ℚ) - 1) 10 := by
    rw [min_eq_right (by norm_num : (10 : ℚ) ≤ ((20 : ℕ) : ℚ) - 1)]
    norm_num [pyTrunc]
  exact ⟨_, heq, pct_from_px_amended.1 _ 20 20 _ _ 0 0 10 10 _ rfl heq
    e1 e1 e2 e2⟩

namespace KB

/-- A detection that survives `processBox` has its resolved label in the
allow-list, unless the allow-list is empty. -/
lemma processBox_ok_some_label (names : List (ℤ × String)) (w h : ℕ)
    (allowed : List String) (b : YoloBox) (nd : NormalizedDetection)
    (hok : processBox names w h allowed b = .ok (some nd)) :
    allowed = [] ∨ nd.label ∈ allowed := by
  cases hb : b.xyxy with
  | none =>
    unfold processBox at hok
    rw [hb] at hok
    simp at hok
  | some q =>
    obtain ⟨x1, y1, x2, y2⟩ := q
    rw [processBox_eq names w h allowed b x1 y1 x2 y2 hb] at hok
    split at hok
    · exact absurd hok (by simp)
    · rename_i hcond
      push_neg at hcond
      simp only [Except.ok.injEq, Option.some.injEq] at hok
      subst hok
      by_cases he : allowed = []
      · exact Or.inl he
      · exact Or.inr (hcond he)

/-- Every label in the output of the per-frame loop is in the allow-list,
unless the allow-list is empty. -/
lemma processBoxes_labels (names : List (ℤ × String)) (w h : ℕ)
    (allowed : List String) (bs : List YoloBox)
    (nds : List NormalizedDetection)
    (hok : processBoxes names w h allowed bs = .ok nds) :
    ∀ nd ∈ nds, allowed = [] ∨ nd.label ∈ allowed := by
  induction bs generalizing nds with
  | nil =>
    unfold processBoxes at hok
    simp only [Except.ok.injEq] at hok
    subst hok
    simp
  | cons b rest ih =>
    unfold processBoxes at hok
    split at hok
    · exact absurd hok (by simp)
    · rename_i nd? hpb
      split at hok
      · exact absurd hok (by simp)
      · rename_i tail hpr
        split at hok
        · rename_i nd0
          simp only [Except.ok.injEq] at hok
          subst hok
          intro nd hnd
          rcases List.mem_cons.mp hnd with hcase | hcase
          · subst hcase
            exact processBox_ok_some_label names w h allowed b nd hpb
          · exact ih tail hpr nd hcase
        · simp only [Except.ok.injEq] at hok
          subst hok
          exact fun nd hnd => ih _ hpr nd hnd

end KB

namespace OV

/-- The open-vocabulary loop passes every detection through: one output per
input, labelled by the matched prompt, with no filtering. -/
lemma processDets_labels (prompts : List String) (w h : ℕ)
    (ds : List OVDetection) (nds : List NormalizedDetection)
    (hok : processDets prompts w h ds = .ok nds) :
    nds.map NormalizedDetection.label =
      ds.filterMap (fun d => prompts.get? d.label_idx) ∧
    nds.length = ds.length := by
  induction ds generalizing nds with
  | nil =>
    unfold processDets at hok
    simp only [Except.ok.injEq] at hok
    subst hok
    simp
  | cons d rest ih =>
    unfold processDets at hok
    split at hok
    · exact absurd hok (by simp)
    · rename_i nd hpd
      split at hok
      · exact absurd hok (by simp)
      · rename_i tail hpr
        simp only [Except.ok.injEq] at hok
        subst hok
        obtain ⟨hmap, hlen⟩ := ih tail hpr
        cases hget : prompts.get? d.label_idx with
        | none =>
          unfold processDet at hpd
          rw [hget] at hpd
          simp at hpd
        | some label =>
          rcases hdb : d.box with ⟨x1, y1, x2, y2⟩
          rw [processDet_eq prompts w h d label x1 y1 x2 y2 hget hdb] at hpd
          simp only [Except.ok.injEq] at hpd
          subst hpd
          rw [List.get?_eq_getElem?] at hget
          constructor
          · simp [List.filterMap_cons, hget, hmap]
          · simp [hlen]

end OV

/-- C6: label filtering is exact — with the configured allow-list
`{"person"}` the closed-vocabulary backend drops any detection whose
resolved label is not in the list and every emitted label is in the list;
with an empty allow-list every detection passes, and the open-vocabulary
backend (which has no filter) emits one detection per raw detection,
labelled by the matched prompt. -/
theorem label_filter_exact :
    (∀ (names : List (ℤ × String)) (w h : ℕ) (b : KB.YoloBox)
       (x1 y1 x2 y2 : ℚ), b.xyxy = some (x1, y1, x2, y2) →
       KB.resolveLabel names (b.cls.getD (-1)) ∉ KB.ALLOWED_CLASSES →
       KB.processBox names w h KB.ALLOWED_CLASSES b = .ok none) ∧
    (∀ (names : List (ℤ × String)) (w h : ℕ) (bs : List KB.YoloBox)
       (nds : List NormalizedDetection),
       KB.processBoxes names w h KB.ALLOWED_CLASSES bs = .ok nds →
       ∀ nd ∈ nds, nd.label ∈ KB.ALLOWED_CLASSES) ∧
    (∀ (names : List (ℤ × String)) (w h : ℕ) (b : KB.YoloBox)
       (x1 y1 x2 y2 : ℚ), b.xyxy = some (x1, y1, x2, y2) →
       ∃ nd, KB.processBox names w h [] b = .ok (some nd) ∧
         nd.label = KB.resolveLabel names (b.cls.getD (-1))) ∧
    (∀ (prompts : List String) (w h : ℕ) (ds : List OV.OVDetection)
       (nds : List NormalizedDetection),
       OV.processDets prompts w h ds = .ok nds →
       nds.map NormalizedDetection.label =
         ds.filterMap (fun d => prompts.get? d.label_idx) ∧
       nds.length = ds.length) := by
  refine ⟨?_, ?_, ?_, ?_⟩
  · intro names w h b x1 y1 x2 y2 hb hlab
    rw [KB.processBox_eq names w h KB.ALLOWED_CLASSES b x1 y1 x2 y2 hb]
    rw [if_pos ⟨by simp [KB.ALLOWED_CLASSES], hlab⟩]
  · intro names w h bs nds hok nd hnd
    rcases KB.processBoxes_labels names w h KB.ALLOWED_CLASSES bs nds hok
      nd hnd with hemp | hmem
    · exact absurd hemp (by simp [KB.ALLOWED_CLASSES])
    · exact hmem
  · intro names w h b x1 y1 x2 y2 hb
    rw [KB.processBox_eq names w h [] b x1 y1 x2 y2 hb]
    rw [if_neg (by simp)]
    exact ⟨_, rfl, rfl⟩
  · exact fun prompts w h ds nds hok =>
      OV.processDets_labels prompts w h ds nds hok

/-- Witness for `label_filter_exact`: a detection resolved to `"car"` is
dropped by the `{"person"}` allow-list. -/
theorem label_filter_exact_witness :
    KB.processBox [((2 : ℤ), "car")] 640 480 KB.ALLOWED_CLASSES
      ⟨some (1, 2, 3, 4), some 2, some (1/2)⟩ = .ok none :=
  label_filter_exact.1 [((2 : ℤ), "car")] 640 480
    ⟨some (1, 2, 3, 4), some 2, some (1/2)⟩ 1 2 3 4 rfl
    (by simp [KB.resolveLabel, KB.ALLOWED_CLASSES])

/-- C7: a present confidence is emitted rounded to 3 decimals and an absent
confidence is propagated as `None` (never zero); the normalizer never fails
on a detection with a box, whatever its confidence. -/
theorem confidence_handling :
    (∀ (names : List (ℤ × String)) (w h : ℕ) (b : KB.YoloBox)
       (x1 y1 x2 y2 : ℚ), b.xyxy = some (x1, y1, x2, y2) →
       ∃ r, KB.processBox names w h KB.ALLOWED_CLASSES b = .ok r ∧
         ∀ nd, r = some nd → nd.confidence = b.conf.map (roundTo 3)) ∧
    (∀ (prompts : List String) (w h : ℕ) (d : OV.OVDetection)
       (nd : NormalizedDetection),
       OV.processDet prompts w h d = .ok nd →
       nd.confidence = some (roundTo 3 d.score)) := by
  constructor
  · intro names w h b x1 y1 x2 y2 hb
    rw [KB.processBox_eq names w h KB.ALLOWED_CLASSES b x1 y1 x2 y2 hb]
    split
    · exact ⟨none, rfl, by simp⟩
    · refine ⟨_, rfl, ?_⟩
      intro nd hnd
      simp only [Option.some.injEq] at hnd
      subst hnd
      rfl
  · intro prompts w h d nd hok
    cases hget : prompts.get? d.label_idx with
    | none =>
      unfold OV.processDet at hok
      rw [hget] at hok
      simp at hok
    | some label =>
      rcases hdb : d.box with ⟨x1, y1, x2, y2⟩
      rw [OV.processDet_eq prompts w h d label x1 y1 x2 y2 hget hdb] at hok
      simp only [Except.ok.injEq] at hok
      subst hok
      rfl

/-- Witness for `confidence_handling`: a detection with an absent
confidence is still normalized, with `None` confidence. -/
theorem confidence_handling_witness :
    ∃ r, KB.processBox [((0 : ℤ), "person")] 640 480 KB.ALLOWED_CLASSES
        ⟨some (1, 2, 3, 4), some 0, none⟩ = .ok r ∧
      ∀ nd, r = some nd → nd.confidence =
        (Option.none : Option ℚ).map (roundTo 3) :=
  confidence_handling.1 [((0 : ℤ), "person")] 640 480
    ⟨some (1, 2, 3, 4), some 0, none⟩ 1 2 3 4 rfl

namespace KB

/-- A successfully processed frame records exactly its absolute index. -/
lemma processFrame_frame_index (vfps : ℚ) (idx : ℕ) (fr : Frame)
    (rec : FrameRecord) (h : processFrame vfps idx fr = .ok rec) :
    rec.frame_index = idx := by
  unfold processFrame at h
  split at h
  · exact absurd h (by simp)
  · simp only [Except.ok.injEq] at h
    subst h
    rfl

/-- The indices recorded by the sampling loop started at offset `k` are
exactly the indices `i ≡ 0 (mod stride)` of the remaining stream. -/
lemma runFrames_map_index (vfps : ℚ) (stride : ℕ) (frames : List Frame) :
    ∀ (k : ℕ) (recs : List FrameRecord),
      runFrames vfps stride k frames = .ok recs →
      recs.map FrameRecord.frame_index =
        ((List.range frames.length).map (· + k)).filter
          (fun i => i % stride == 0) := by
  induction frames with
  | nil =>
    intro k recs h
    unfold runFrames at h
    simp only [Except.ok.injEq] at h
    subst h
    simp
  | cons fr rest ih =>
    intro k recs h
    unfold runFrames at h
    have hrange : (List.range (rest.length + 1)).map (· + k) =
        k :: (List.range rest.length).map (· + (k + 1)) := by
      rw [List.range_succ_eq_map, List.map_cons, List.map_map]
      simp only [Nat.zero_add]
      refine congrArg _ (List.map_congr_left ?_)
      intro i _
      simp only [Function.comp_apply]
      omega
    by_cases hk : k % stride = 0
    · rw [if_neg (by simpa using hk)] at h
      split at h
      · exact absurd h (by simp)
      · rename_i rec hrec
        split at h
        · exact absurd h (by simp)
        · rename_i tail htail
          simp only [Except.ok.injEq] at h
          subst h
          rw [List.length_cons, hrange, List.map_cons, List.filter_cons]
          rw [processFrame_frame_index vfps k fr rec hrec]
          have hc : (k % stride == 0) = true := by simpa using hk
          rw [hc, if_pos rfl, ih (k + 1) tail htail]
    · rw [if_pos (by simpa using hk)] at h
      rw [List.length_cons, hrange, List.filter_cons]
      have hc : (k % stride == 0) = false := by simpa using hk
      rw [hc]
      simpa using ih (k + 1) recs h

/-- The frames array of a successfully assembled artifact holds exactly the
stride-sampled indices. -/
lemma run_detection_frames (sf c : ℚ) (i : ℕ) (rf : ℚ) (fs : List Frame)
    (art : RunArtifact) (h : run_detection sf c i true rf fs = .ok art) :
    art.frames.map FrameRecord.frame_index =
      (List.range fs.length).filter
        (fun j => j % strideOf (effectiveFps rf) sf == 0) := by
  unfold run_detection at h
  simp only [Bool.not_true, Bool.false_eq_true, if_false] at h
  split at h
  · exact absurd h (by simp)
  · rename_i frames hframes
    simp only [Except.ok.injEq] at h
    subst h
    have := runFrames_map_index (effectiveFps rf)
      (strideOf (effectiveFps rf) sf) fs 0 frames hframes
    simpa using this

end KB

namespace OV

/-- A successfully processed frame records exactly its absolute index. -/
lemma processFrame_frame_index_ov (prompts : List String) (vfps : ℚ) (idx : ℕ)
    (fr : Frame) (rec : FrameRecord)
    (h : processFrame prompts vfps idx fr = .ok rec) :
    rec.frame_index = idx := by
  unfold processFrame at h
  split at h
  · exact absurd h (by simp)
  · simp only [Except.ok.injEq] at h
    subst h
    rfl

/-- The indices recorded by the sampling loop started at offset `k` are
exactly the indices `i ≡ 0 (mod stride)` of the remaining stream. -/
lemma runFrames_map_index_ov (prompts : List String) (vfps : ℚ) (stride : ℕ)
    (frames : List Frame) :
    ∀ (k : ℕ) (recs : List FrameRecord),
      runFrames prompts vfps stride k frames = .ok recs →
      recs.map FrameRecord.frame_index =
        ((List.range frames.length).map (· + k)).filter
          (fun i => i % stride == 0) := by
  induction frames with
  | nil =>
    intro k recs h
    unfold runFrames at h
    simp only [Except.ok.injEq] at h
    subst h
    simp
  | cons fr rest ih =>
    intro k recs h
    unfold runFrames at h
    have hrange : (List.range (rest.length + 1)).map (· + k) =
        k :: (List.range rest.length).map (· + (k + 1)) := by
      rw [List.range_succ_eq_map, List.map_cons, List.map_map]
      simp only [Nat.zero_add]
      refine congrArg _ (List.map_congr_left ?_)
      intro i _
      simp only [Function.comp_apply]
      omega
    by_cases hk : k % stride = 0
    · rw [if_neg (by simpa using hk)] at h
      split at h
      · exact absurd h (by simp)
      · rename_i rec hrec
        split at h
        · exact absurd h (by simp)
        · rename_i tail htail
          simp only [Except.ok.injEq] at h
          subst h
          rw [List.length_cons, hrange, List.map_cons, List.filter_cons]
          rw [processFrame_frame_index_ov prompts vfps k fr rec hrec]
          have hc : (k % stride == 0) = true := by simpa using hk
          rw [hc, if_pos rfl, ih (k + 1) tail htail]
    · rw [if_pos (by simpa using hk)] at h
      rw [List.length_cons, hrange, List.filter_cons]
      have hc : (k % stride == 0) = false := by simpa using hk
      rw [hc]
      simpa using ih (k + 1) recs h

/-- The frames array of a successfully assembled artifact holds exactly the
stride-sampled indices. -/
lemma run_detection_frames_ov (sf st : ℚ) (m : String)
    (p : Option (List String)) (rf : ℚ) (fs : List Frame)
    (art : RunArtifact) (h : run_detection sf st m p true rf fs = .ok art) :
    art.frames.map FrameRecord.frame_index =
      (List.range fs.length).filter
        (fun j => j % strideOf (effectiveFps rf) sf == 0) := by
  unfold run_detection at h
  simp only [Bool.not_true, Bool.false_eq_true, if_false] at h
  split at h
  · exact absurd h (by simp)
  · rename_i frames hframes
    simp only [Except.ok.injEq] at h
    subst h
    have := runFrames_map_index_ov _ (effectiveFps rf)
      (strideOf (effectiveFps rf) sf) fs 0 frames hframes
    simpa using this

end OV

/-- C4: the frames array of either backend's artifact contains exactly one
record per frame index divisible by the stride, over the full 0-based index
range, in ascending order, independently of the detections; a sampled frame
with no detections still yields a record with an empty boxes list. -/
theorem frame_sampling :
    (∀ (sf c : ℚ) (i : ℕ) (rf : ℚ) (fs : List KB.Frame)
       (art : KB.RunArtifact),
       KB.run_detection sf c i true rf fs = .ok art →
       art.frames.map FrameRecord.frame_index =
         (List.range fs.length).filter
           (fun j => j % strideOf (effectiveFps rf) sf == 0) ∧
       (art.frames.map FrameRecord.frame_index).Sorted (· < ·)) ∧
    (∀ (sf st : ℚ) (m : String) (p : Option (List String)) (rf : ℚ)
       (fs : List OV.Frame) (art : OV.RunArtifact),
       OV.run_detection sf st m p true rf fs = .ok art →
       art.frames.map FrameRecord.frame_index =
         (List.range fs.length).filter
           (fun j => j % strideOf (effectiveFps rf) sf == 0)) ∧
    (∀ (vfps : ℚ) (idx w h : ℕ),
       KB.processFrame vfps idx ⟨w, h, none⟩ =
         .ok ⟨roundTo 3 ((idx : ℚ) / vfps), idx, []⟩ ∧
       ∀ names : List (ℤ × String),
         KB.processFrame vfps idx ⟨w, h, some ⟨names, some []⟩⟩ =
           .ok ⟨roundTo 3 ((idx : ℚ) / vfps), idx, []⟩) ∧
    (∀ (prompts : List String) (vfps : ℚ) (idx w h : ℕ),
       OV.processFrame prompts vfps idx ⟨w, h, []⟩ =
         .ok ⟨roundTo 3 ((idx : ℚ) / vfps), idx, []⟩) := by
  refine ⟨?_, ?_, ?_, ?_⟩
  · intro sf c i rf fs art h
    have heq := KB.run_detection_frames sf c i rf fs art h
    refine ⟨heq, ?_⟩
    rw [heq]
    exact (List.pairwise_lt_range fs.length).filter _
  · exact fun sf st m p rf fs art h =>
      OV.run_detection_frames_ov sf st m p rf fs art h
  · exact fun vfps idx w h => ⟨rfl, fun names => rfl⟩
  · exact fun prompts vfps idx w h => rfl

/-- Witness for `frame_sampling` on a one-frame stream with no
detections. -/
theorem frame_sampling_witness :
    ∃ art, KB.run_detection 3 (2/5) 960 true 30
        [⟨640, 480, none⟩] = .ok art ∧
      (art.frames.map FrameRecord.frame_index =
        (List.range 1).filter
          (fun j => j % strideOf (effectiveFps 30) 3 == 0) ∧
       (art.frames.map FrameRecord.frame_index).Sorted (· < ·)) := by
  have h1 : KB.runFrames (effectiveFps 30) (strideOf (effectiveFps 30) 3) 0
      [⟨640, 480, none⟩] =
      .ok [⟨roundTo 3 ((0 : ℚ) / effectiveFps 30), 0, []⟩] := by
    unfold KB.runFrames
    rw [if_neg (by simp)]
    rfl
  have hrun : KB.run_detection 3 (2/5) 960 true 30 [⟨640, 480, none⟩] =
      .ok { source := "public/Kill_Bill_Vol1_Part2_30FPS_1428s-1432s.mp4"
            sample_fps := 3
            video_fps := effectiveFps 30
            model := "yolov8n.pt"
            conf := 2/5
            imgsz := 960
            frames := [⟨roundTo 3 ((0 : ℚ) / effectiveFps 30), 0, []⟩] } := by
    simp only [KB.run_detection, Bool.not_true, Bool.false_eq_true, if_false,
      h1]
  exact ⟨_, hrun, frame_sampling.1 3 (2/5) 960 30 _ _ hrun⟩

/-- Witness for `persist_amended` at a concrete document and prior
contents. -/
theorem persist_amended_witness :
    (persistOps "doc").head? = some (FsOp.mkdirParents "data/cv") ∧
    (persistOps "doc").filter FsOp.isWrite = [FsOp.write OUT_PATH "doc"] ∧
    contentAfter (some "old") (persistOps "doc") = some "doc" ∧
    contentAfter none (persistOps "doc") = some "doc" :=
  persist_amended "doc" "old"
